import Mathlib

/-!
Shallow embedding of the in-repo logic of the Habana torchvision
classification drivers:

* `PyTorch/computer_vision/classification/torchvision/train.py`
  (argument checks, optional-dependency guards, the custom learning-rate
  schedule `lr_vec_fcn` / `adjust_learning_rate`, the epoch loop bounds,
  checkpoint saving and resume), and
* `PyTorch/computer_vision/classification/torchvision/inference.py`
  (the `HPUModel.benchmark` metric arithmetic, `resnet_accuracy`
  batch averaging and output-row trimming, and the model-type selection).

External framework state (model weights, optimizer state, scheduler state,
per-batch accuracies, wall-clock readings) is abstracted by type parameters
or rational-valued inputs; everything the repository itself computes is
modelled executably.  Python exceptions (assertion failures, `IndexError`,
`KeyError`) are modelled by `Except`/`Option` results.
-/

/- ### train.py, main lines 242-272: argument checks and import guards -/

/-- Errors raised by `main` before training starts: Python `AssertionError`
(from `assert False, msg`) and `RuntimeError`. -/
inductive MainErr where
  | assertionErr : String → MainErr
  | runtimeErr : String → MainErr
deriving DecidableEq

instance : DecidableEq (Except MainErr Unit) := fun a b =>
  match a, b with
  | .error x, .error y =>
    if h : x = y then isTrue (by rw [h]) else
      isFalse (by intro hc; injection hc with h2; exact h h2)
  | .ok x, .ok y => isTrue (by cases x; cases y; rfl)
  | .error _, .ok _ => isFalse (fun hc => Except.noConfusion hc)
  | .ok _, .error _ => isFalse (fun hc => Except.noConfusion hc)

/-- train.py lines 242-246: the two CLI validity assertions at the top of
`main`, in source order. -/
def mainArgChecks (eval_offset_epochs epochs_between_evals : Int) :
    Except MainErr Unit :=
  if eval_offset_epochs < 0 then
    Except.error (MainErr.assertionErr "Eval offset has to be 0 or bigger")
  else if epochs_between_evals < 1 then
    Except.error (MainErr.assertionErr "Epochs between evaluations has to be 1 or bigger")
  else Except.ok ()

/-- Which optional imports succeed in the running Python environment:
`import habana_dataloader` (train.py line 256), the interpreter version
test (line 268), and the module-level `from apex import amp` guard
(lines 27-30, leaving `amp = None` on failure). -/
structure ImportEnv where
  hdl_importable : Bool
  py_version_ge3 : Bool
  amp_available : Bool

/-- train.py lines 242-272: everything in `main` that can raise before any
training work, in source order: the two argument assertions, the
`habana_dataloader` import assertion for `--dl-worker-type HABANA`, and the
two apex `RuntimeError`s. -/
def mainPreChecks (eval_offset_epochs epochs_between_evals : Int)
    (dl_worker_type : String) (apex : Bool) (env : ImportEnv) :
    Except MainErr Unit :=
  match mainArgChecks eval_offset_epochs epochs_between_evals with
  | Except.error e => Except.error e
  | Except.ok _ =>
    if dl_worker_type = "HABANA" ∧ env.hdl_importable = false then
      Except.error (MainErr.assertionErr "Could Not import habana dataloader package")
    else if apex = true ∧ env.py_version_ge3 = false then
      Except.error (MainErr.runtimeErr "Apex currently only supports Python 3. Aborting.")
    else if apex = true ∧ env.amp_available = false then
      Except.error (MainErr.runtimeErr "Failed to import apex. Please install apex from https://www.github.com/nvidia/apex to enable mixed-precision training.")
    else Except.ok ()

/-- train.py line 445: the epochs visited by
`for epoch in range(args.start_epoch, args.epochs)`. -/
def trainLoopEpochs (start_epoch epochs : Int) : List Int :=
  (List.range (epochs - start_epoch).toNat).map (fun i : Nat => start_epoch + (i : Int))

/-- The epochs for which `train_one_epoch` is reached: empty whenever one of
the pre-training checks raises. -/
def mainTrainedEpochs (eval_offset_epochs epochs_between_evals : Int)
    (dl_worker_type : String) (apex : Bool) (env : ImportEnv)
    (start_epoch epochs : Int) : List Int :=
  match mainPreChecks eval_offset_epochs epochs_between_evals dl_worker_type apex env with
  | Except.error _ => []
  | Except.ok _ => trainLoopEpochs start_epoch epochs

/- ### train.py lines 222-233: lr_vec_fcn and adjust_learning_rate -/

/-- The state of `lr_vec` after the first `k` iterations of the loop in
`lr_vec_fcn` (train.py lines 223-225).  Iteration `n` appends
`[values[n]] * (milestones[n+1] - milestones[n])`; a Python list repeated a
non-positive number of times is empty, and an out-of-range `values[n]`
raises `IndexError` (modelled by `none`). -/
def lr_vec_loop {α : Type} (values : List α) (milestones : List Int) :
    Nat → Option (List α)
  | 0 => some []
  | k + 1 =>
    match lr_vec_loop values milestones k with
    | none => none
    | some acc =>
      match values[k]?, milestones[k]?, milestones[k + 1]? with
      | some v, some mk, some mk1 =>
        some (acc ++ List.replicate (mk1 - mk).toNat v)
      | _, _, _ => none

/-- train.py lines 222-226: `lr_vec_fcn(values, milestones)`, whose loop runs
over `range(len(milestones) - 1)`. -/
def lr_vec_fcn {α : Type} (values : List α) (milestones : List Int) :
    Option (List α) :=
  lr_vec_loop values milestones (milestones.length - 1)

/-- train.py lines 229-233: `adjust_learning_rate(optimizer, epoch, lr_vec)`
reads `lr_vec[epoch]` with no bounds check (an out-of-range read raises
`IndexError`, modelled by `none`) and sets every param group's `'lr'` to it. -/
def adjust_learning_rate (param_group_lrs : List Rat) (epoch : Nat)
    (lr_vec : List Rat) : Option (List Rat) :=
  (lr_vec[epoch]?).map (fun lr => param_group_lrs.map (fun _ => lr))

/-- train.py line 405: the list `main` builds under `--custom-lr-values`:
`lr_vec_fcn([args.lr] + args.custom_lr_values,
[0] + args.custom_lr_milestones + [args.epochs])`. -/
def mainLrVec (lr : Rat) (custom_lr_values : List Rat)
    (custom_lr_milestones : List Int) (epochs : Int) : Option (List Rat) :=
  lr_vec_fcn (lr :: custom_lr_values) (0 :: custom_lr_milestones ++ [epochs])

/-- Index `i` of the output of `lr_vec_fcn` falls in the window of milestone
segment `n`: `milestones[n] - milestones[0] <= i < milestones[n+1] - milestones[0]`. -/
def msWindow (milestones : List Int) (n i : Nat) : Prop :=
  n + 1 < milestones.length ∧
  milestones.getD n 0 - milestones.getD 0 0 ≤ (i : Int) ∧
  (i : Int) < milestones.getD (n + 1) 0 - milestones.getD 0 0

/- ### train.py lines 425-433 and 461-489: checkpoint dictionary, save, resume -/

/-- A value stored in a checkpoint dictionary.  `M`, `O`, `S`, `A` abstract
the external framework's model state_dict, optimizer state_dict, scheduler
state_dict, and the argparse namespace. -/
inductive CkptVal (M O S A : Type) where
  | modelSt : M → CkptVal M O S A
  | optimSt : O → CkptVal M O S A
  | schedSt : Option S → CkptVal M O S A
  | epochNum : Int → CkptVal M O S A
  | argsRec : A → CkptVal M O S A

/-- train.py lines 463-468 (and the identical lines 478-483): the checkpoint
dictionary written after finishing epoch `e`. -/
def checkpointDict {M O S A : Type} (m : M) (o : O) (s : Option S) (e : Int)
    (a : A) : List (String × CkptVal M O S A) :=
  [("model", CkptVal.modelSt m),
   ("optimizer", CkptVal.optimSt o),
   ("lr_scheduler", CkptVal.schedSt s),
   ("epoch", CkptVal.epochNum e),
   ("args", CkptVal.argsRec a)]

/-- The part of `main`'s run state that `--resume` overwrites. -/
structure ResumeState (M O S : Type) where
  model : M
  optimizer : O
  lr_scheduler : Option S
  start_epoch : Int

/-- train.py lines 425-433: loading a checkpoint under `--resume`.  The
`'model'` and `'optimizer'` entries are loaded unconditionally, the
`'lr_scheduler'` entry only when the current run has a scheduler object, and
`args.start_epoch` becomes `checkpoint['epoch'] + 1`.  A missing or
wrongly-typed entry (Python `KeyError` or a load failure) is `none`. -/
def mainResume {M O S A : Type} (st : ResumeState M O S)
    (ckpt : List (String × CkptVal M O S A)) : Option (ResumeState M O S) :=
  match ckpt.lookup "model" with
  | some (CkptVal.modelSt m) =>
    match ckpt.lookup "optimizer" with
    | some (CkptVal.optimSt o) =>
      match st.lr_scheduler with
      | some _ =>
        match ckpt.lookup "lr_scheduler" with
        | some (CkptVal.schedSt s) =>
          match ckpt.lookup "epoch" with
          | some (CkptVal.epochNum e) => some ⟨m, o, s, e + 1⟩
          | _ => none
        | _ => none
      | none =>
        match ckpt.lookup "epoch" with
        | some (CkptVal.epochNum e) => some ⟨m, o, none, e + 1⟩
        | _ => none
    | _ => none
  | _ => none

/-- The scheduler objects `main` can construct (train.py lines 389-408). -/
inductive SchedKind where
  | polyWarmup
  | stepLR
deriving DecidableEq

/-- train.py lines 389-408: which scheduler object `main` binds.  `lars`
always gets `PolynomialDecayWithWarmup`; `sgd` gets `None` when custom LR
values are supplied and `StepLR` otherwise.  Any other optimizer string
leaves the Python variable unbound (outer `none`); argparse restricts the
choice to `lars`/`sgd`. -/
def mainScheduler (optimizer : String) (hasCustomLrValues : Bool) :
    Option (Option SchedKind) :=
  if optimizer = "lars" then some (some SchedKind.polyWarmup)
  else if optimizer = "sgd" then
    if hasCustomLrValues then some none else some (some SchedKind.stepLR)
  else none

/-- The checkpoint dictionary `main` builds at the end of an epoch
(train.py lines 463-468): `'lr_scheduler'` is
`None if lr_scheduler is None else lr_scheduler.state_dict()`.
`stateOf` abstracts `state_dict()` of the live scheduler object. -/
def mainCheckpointDict {M O S A : Type} (optimizer : String)
    (hasCustomLrValues : Bool) (stateOf : SchedKind → S) (m : M) (o : O)
    (e : Int) (a : A) : Option (List (String × CkptVal M O S A)) :=
  (mainScheduler optimizer hasCustomLrValues).map
    (fun sched => checkpointDict m o (sched.map stateOf) e a)

/-- train.py lines 461-489: the file writes performed at the end of epoch
`e`.  Nothing is written unless `args.output_dir` is truthy and
`args.save_checkpoint` is set; both the `hpu` branch and the other-device
branch write the same dictionary to `model_{e}.pth` and `checkpoint.pth`. -/
def mainEpochSave {M O S A : Type} (output_dir : String)
    (save_checkpoint : Bool) (device : String) (optimizer : String)
    (hasCustomLrValues : Bool) (stateOf : SchedKind → S) (m : M) (o : O)
    (e : Int) (a : A) :
    Option (List (String × List (String × CkptVal M O S A))) :=
  if output_dir ≠ "" ∧ save_checkpoint = true then
    (mainCheckpointDict optimizer hasCustomLrValues stateOf m o e a).map
      (fun d =>
        if device = "hpu" then
          [("model_" ++ toString e ++ ".pth", d), ("checkpoint.pth", d)]
        else
          [("model_" ++ toString e ++ ".pth", d), ("checkpoint.pth", d)])
  else some []

/- ### inference.py lines 108-136: HPUModel.benchmark -/

/-- The inputs `benchmark` consumes: the `(finish, start)` clock pair that
`benchmark_runner` returns for each measurement mode, the dataset size
`len(data_loader.dataloader.dataset)`, and `data_loader.dataloader.batch_size`. -/
structure BenchEnv where
  runFinishStart : String → Rat × Rat
  total_samples : Nat
  batch_size : Nat

/-- inference.py lines 118-136: `HPUModel.benchmark`.  Returns the
measurement modes passed to `benchmark_runner` in call order, the values
printed (latency duration, throughput duration, total samples), and the
metrics dictionary. -/
def HPUModel.benchmark (env : BenchEnv) :
    List String × List Rat × List (String × Rat) :=
  let fl := env.runFinishStart "latency"
  let duration_latency := fl.1 - fl.2
  let ft := env.runFinishStart "throughput"
  let duration_tp := ft.1 - ft.2
  let performance := (env.total_samples : Rat) / duration_tp
  let avg_latency := (env.batch_size : Rat) / performance
  (["latency", "throughput"],
   [duration_latency, duration_tp, (env.total_samples : Rat)],
   [("avg_latency (ms)", avg_latency * 1000),
    ("performance (img/s)", performance)])

/- ### inference.py lines 197-214: resnet_accuracy -/

/-- The loop in `resnet_accuracy`: each batch contributes its
`utils.accuracy` top-1/top-5 pair to the running sums, and `i` (bound by
`enumerate(data_loader, start=1)`) ends at the number of batches. -/
def resnet_accuracy_loop :
    List (Rat × Rat) → Rat → Rat → Nat → Rat × Rat × Nat
  | [], acc1_sum, acc5_sum, i => (acc1_sum, acc5_sum, i)
  | b :: rest, acc1_sum, acc5_sum, i =>
    resnet_accuracy_loop rest (acc1_sum + b.1) (acc5_sum + b.2) (i + 1)

/-- inference.py lines 197-214: `resnet_accuracy` as a function of the
per-batch accuracy pairs.  With no batches the loop variable `i` is unbound
and building the metrics raises `NameError` (modelled by `none`). -/
def resnet_accuracy (batchAccs : List (Rat × Rat)) :
    Option (List (String × Rat)) :=
  match batchAccs with
  | [] => none
  | _ :: _ =>
    let r := resnet_accuracy_loop batchAccs 0 0 0
    some [("top_1", r.1 / (r.2.2 : Rat)), ("top_5", r.2.1 / (r.2.2 : Rat))]

/-- inference.py lines 204-205: the rows of the model output that get
scored.  When the row count differs from the number of labels the output is
sliced to `output[0:target.size(0)]` (a Python slice clamps, like
`List.take`); otherwise it is passed through unchanged. -/
def resnet_output_rows {α : Type} (output : List α) (targetLen : Nat) :
    List α :=
  if output.length ≠ targetLen then output.take targetLen else output

/-- inference.py line 206: what `utils.accuracy` is applied to; `accFn`
abstracts the external top-1/top-5 computation. -/
def resnet_batch_score {α β : Type} (accFn : List α → List β → Rat × Rat)
    (output : List α) (target : List β) : Rat × Rat :=
  accFn (resnet_output_rows output target.length) target

/- ### inference.py lines 256-299: model-type selection -/

/-- The three execution-mode wrapper classes of inference.py. -/
inductive ModelMode where
  | HPUModel
  | HPUJITModel
  | HPUGraphModel
deriving DecidableEq

/-- inference.py lines 257-258: `modes = {HPUJITModel, HPUModel,
HPUGraphModel}` keyed by `__name__`. -/
def modes : List (String × ModelMode) :=
  [("HPUJITModel", ModelMode.HPUJITModel),
   ("HPUModel", ModelMode.HPUModel),
   ("HPUGraphModel", ModelMode.HPUGraphModel)]

/-- inference.py lines 262-265 and 290: argparse restricts `--model_type` to
`modes.keys()` and `main` receives `modes[args.model_type]`; any other
string is rejected (`none`). -/
def inferenceModelType (s : String) : Option ModelMode := modes.lookup s

/-- The uses `main` makes of the constructed model object. -/
inductive InferAction where
  | benchAct : ModelMode → InferAction
  | accAct : ModelMode → InferAction

/-- The model type an action uses. -/
def inferActionMode : InferAction → ModelMode
  | InferAction.benchAct t => t
  | InferAction.accAct t => t

/-- inference.py lines 245-253: the single constructed model of type `t` is
used for benchmarking when `--benchmark` is set and for accuracy when
`--accuracy` is set. -/
def inference_main (t : ModelMode) (run_benchmarks run_accuracy : Bool) :
    List InferAction :=
  (if run_benchmarks then [InferAction.benchAct t] else []) ++
  (if run_accuracy then [InferAction.accAct t] else [])

/- ### Helper lemmas -/

theorem mainArgChecks_ok {off ebe : Int} (h1 : 0 ≤ off) (h2 : 1 ≤ ebe) :
    mainArgChecks off ebe = Except.ok () := by
  unfold mainArgChecks
  rw [if_neg (by omega), if_neg (by omega)]

theorem trainLoopEpochs_mem (start_epoch epochs ep : Int) :
    ep ∈ trainLoopEpochs start_epoch epochs ↔ start_epoch ≤ ep ∧ ep < epochs := by
  unfold trainLoopEpochs
  rw [List.mem_map]
  constructor
  · rintro ⟨i, hi, hfl⟩
    rw [List.mem_range] at hi
    have he : start_epoch + (i : Int) = ep := hfl
    omega
  · rintro ⟨h1, h2⟩
    refine ⟨(ep - start_epoch).toNat, ?_, ?_⟩
    · rw [List.mem_range]; omega
    · show start_epoch + ((ep - start_epoch).toNat : Int) = ep
      omega

theorem trainLoopEpochs_head (start_epoch epochs : Int) :
    (trainLoopEpochs start_epoch epochs).head? =
      if start_epoch < epochs then some start_epoch else none := by
  unfold trainLoopEpochs
  rcases h : (epochs - start_epoch).toNat with _ | n
  · have hlt : ¬ start_epoch < epochs := by omega
    simp [hlt]
  · have hlt : start_epoch < epochs := by omega
    rw [List.range_succ_eq_map]
    simp [hlt]

/- ### C3 -/

/-- C3 counterexample: with `--eval_offset_epochs -1 --epochs_between_evals 0`
both validity conditions are violated, but `main` fails with the eval-offset
assertion, not with the epochs-between-evals assertion the claim also
promises for every argument set with `epochs_between_evals < 1`. -/
theorem C3_argChecks_counterexample :
    mainArgChecks (-1) 0 =
      Except.error (MainErr.assertionErr "Eval offset has to be 0 or bigger") ∧
    mainArgChecks (-1) 0 ≠
      Except.error (MainErr.assertionErr "Epochs between evaluations has to be 1 or bigger") := by
  decide

/-- C3 (amended): the argument checks run before any other work; when
`eval_offset_epochs < 0` main fails with the eval-offset assertion (even if
the second condition is also violated); when `eval_offset_epochs ≥ 0` and
`epochs_between_evals < 1` it fails with the epochs-between-evals assertion;
and the checks pass exactly when `eval_offset_epochs ≥ 0` and
`epochs_between_evals ≥ 1`. -/
theorem C3_argChecks (off ebe : Int) :
    (off < 0 →
      mainArgChecks off ebe =
        Except.error (MainErr.assertionErr "Eval offset has to be 0 or bigger")) ∧
    (0 ≤ off → ebe < 1 →
      mainArgChecks off ebe =
        Except.error (MainErr.assertionErr "Epochs between evaluations has to be 1 or bigger")) ∧
    (mainArgChecks off ebe = Except.ok () ↔ 0 ≤ off ∧ 1 ≤ ebe) := by
  refine ⟨fun h => ?_, fun h1 h2 => ?_, ?_⟩
  · unfold mainArgChecks; rw [if_pos h]
  · unfold mainArgChecks; rw [if_neg (by omega), if_pos h2]
  · constructor
    · intro h
      unfold mainArgChecks at h
      split_ifs at h with h1 h2
      all_goals first
        | exact Except.noConfusion h
        | omega
    · rintro ⟨h1, h2⟩; exact mainArgChecks_ok h1 h2

theorem C3_argChecks_witness :
    mainArgChecks (-3) 7 =
      Except.error (MainErr.assertionErr "Eval offset has to be 0 or bigger") :=
  (C3_argChecks (-3) 7).1 (by decide)

/- ### C4 -/

/-- C4: with otherwise-valid arguments, a missing optional dependency makes
`main` fail before any training step: `--dl-worker-type HABANA` with
`habana_dataloader` unimportable fails with the dataloader assertion, and
`--apex` with the module-level apex import having failed raises a
`RuntimeError`; in both cases the set of epochs reaching `train_one_epoch`
is empty. -/
theorem C4_missing_dependency (off ebe : Int) (dl : String) (apex : Bool)
    (env : ImportEnv) (start_epoch epochs : Int)
    (hoff : 0 ≤ off) (hebe : 1 ≤ ebe) :
    (dl = "HABANA" → env.hdl_importable = false →
      mainPreChecks off ebe dl apex env =
        Except.error (MainErr.assertionErr "Could Not import habana dataloader package") ∧
      mainTrainedEpochs off ebe dl apex env start_epoch epochs = []) ∧
    (apex = true → env.amp_available = false →
      (dl = "HABANA" → env.hdl_importable = true) →
      (∃ msg, mainPreChecks off ebe dl apex env =
        Except.error (MainErr.runtimeErr msg)) ∧
      mainTrainedEpochs off ebe dl apex env start_epoch epochs = []) := by
  have hok := mainArgChecks_ok hoff hebe
  constructor
  · intro hdl hh
    have hpre : mainPreChecks off ebe dl apex env =
        Except.error (MainErr.assertionErr "Could Not import habana dataloader package") := by
      simp only [mainPreChecks, hok]
      rw [if_pos ⟨hdl, hh⟩]
    exact ⟨hpre, by simp only [mainTrainedEpochs, hpre]⟩
  · intro hapex hamp hhdl
    have hc1 : ¬ (dl = "HABANA" ∧ env.hdl_importable = false) := by
      rintro ⟨h1, h2⟩
      rw [hhdl h1] at h2
      exact Bool.noConfusion h2
    by_cases hpy : env.py_version_ge3 = false
    · have hpre : mainPreChecks off ebe dl apex env =
          Except.error (MainErr.runtimeErr "Apex currently only supports Python 3. Aborting.") := by
        simp only [mainPreChecks, hok]
        rw [if_neg hc1, if_pos ⟨hapex, hpy⟩]
      exact ⟨⟨_, hpre⟩, by simp only [mainTrainedEpochs, hpre]⟩
    · have hc2 : ¬ (apex = true ∧ env.py_version_ge3 = false) := by
        rintro ⟨_, h⟩; exact hpy h
      have hpre : mainPreChecks off ebe dl apex env =
          Except.error (MainErr.runtimeErr "Failed to import apex. Please install apex from https://www.github.com/nvidia/apex to enable mixed-precision training.") := by
        simp only [mainPreChecks, hok]
        rw [if_neg hc1, if_neg hc2, if_pos ⟨hapex, hamp⟩]
      exact ⟨⟨_, hpre⟩, by simp only [mainTrainedEpochs, hpre]⟩

theorem C4_missing_dependency_witness :
    mainPreChecks 0 1 "HABANA" false ⟨false, true, true⟩ =
      Except.error (MainErr.assertionErr "Could Not import habana dataloader package") ∧
    mainTrainedEpochs 0 1 "HABANA" false ⟨false, true, true⟩ 0 2 = [] :=
  (C4_missing_dependency 0 1 "HABANA" false ⟨false, true, true⟩ 0 2 (by decide)
    (by decide)).1 rfl rfl

/- ### C5 -/

/-- C5: `HPUModel.benchmark` runs the loader once in latency mode then once
in throughput mode; the returned `'performance (img/s)'` is the dataset size
divided by the throughput-run duration, `'avg_latency (ms)'` is 1000 times
the batch size divided by that performance, and the latency-run duration is
printed but the metrics do not depend on the latency run. -/
theorem C5_benchmark_metrics (env : BenchEnv) :
    (HPUModel.benchmark env).1 = ["latency", "throughput"] ∧
    (HPUModel.benchmark env).2.2.lookup "performance (img/s)" =
      some ((env.total_samples : Rat) /
        ((env.runFinishStart "throughput").1 - (env.runFinishStart "throughput").2)) ∧
    (HPUModel.benchmark env).2.2.lookup "avg_latency (ms)" =
      some (1000 * (env.batch_size : Rat) /
        ((env.total_samples : Rat) /
          ((env.runFinishStart "throughput").1 - (env.runFinishStart "throughput").2))) ∧
    ((env.runFinishStart "latency").1 - (env.runFinishStart "latency").2) ∈
      (HPUModel.benchmark env).2.1 ∧
    (∀ env' : BenchEnv,
      env.runFinishStart "throughput" = env'.runFinishStart "throughput" →
      env.total_samples = env'.total_samples →
      env.batch_size = env'.batch_size →
      (HPUModel.benchmark env).2.2 = (HPUModel.benchmark env').2.2) := by
  refine ⟨rfl, rfl, ?_, ?_, ?_⟩
  · have e2 : (HPUModel.benchmark env).2.2.lookup "avg_latency (ms)" =
        some (((env.batch_size : Rat) /
          ((env.total_samples : Rat) /
            ((env.runFinishStart "throughput").1 -
              (env.runFinishStart "throughput").2))) * 1000) := rfl
    rw [e2]
    congr 1
    ring
  · exact List.mem_cons_self _ _
  · intro env' h1 h2 h3
    simp only [HPUModel.benchmark, h1, h2, h3]

theorem C5_benchmark_metrics_witness :
    (HPUModel.benchmark ⟨fun _ => (3, 1), 10, 2⟩).2.2.lookup "performance (img/s)" =
      some 5 := by
  have h := (C5_benchmark_metrics ⟨fun _ => (3, 1), 10, 2⟩).2.1
  rw [h]
  norm_num

/- ### C6 -/

theorem resnet_accuracy_loop_spec (l : List (Rat × Rat)) :
    ∀ s1 s5 i, resnet_accuracy_loop l s1 s5 i =
      (s1 + (l.map Prod.fst).sum, s5 + (l.map Prod.snd).sum, i + l.length) := by
  induction l with
  | nil => intro s1 s5 i; simp [resnet_accuracy_loop]
  | cons b rest ih =>
    intro s1 s5 i
    simp [resnet_accuracy_loop, ih, add_assoc]
    omega

/-- C6: `resnet_accuracy` returns `top_1` and `top_5` equal to the
arithmetic mean of the per-batch top-1/top-5 accuracies, each batch counted
once regardless of how many samples it holds, for any run with at least one
batch. -/
theorem C6_resnet_accuracy_mean (b : Rat × Rat) (rest : List (Rat × Rat)) :
    resnet_accuracy (b :: rest) =
      some [("top_1", ((b :: rest).map Prod.fst).sum / (((b :: rest).length : Nat) : Rat)),
            ("top_5", ((b :: rest).map Prod.snd).sum / (((b :: rest).length : Nat) : Rat))] := by
  simp [resnet_accuracy, resnet_accuracy_loop_spec]

/- ### C7 -/

/-- C7: the inference driver accepts exactly the three `--model_type` values
`HPUJITModel`, `HPUModel`, `HPUGraphModel` (anything else is rejected by the
parser), each maps to its execution-mode class, the mapping is
deterministic, and every benchmarking/accuracy action of an invocation uses
that single constructed model. -/
theorem C7_model_type_selection :
    (∀ s, (inferenceModelType s).isSome ↔
      s = "HPUJITModel" ∨ s = "HPUModel" ∨ s = "HPUGraphModel") ∧
    inferenceModelType "HPUModel" = some ModelMode.HPUModel ∧
    inferenceModelType "HPUJITModel" = some ModelMode.HPUJITModel ∧
    inferenceModelType "HPUGraphModel" = some ModelMode.HPUGraphModel ∧
    (∀ s t t', inferenceModelType s = some t → inferenceModelType s = some t' →
      t = t') ∧
    (∀ t b r, ∀ act ∈ inference_main t b r, inferActionMode act = t) := by
  refine ⟨?_, rfl, rfl, rfl, ?_, ?_⟩
  · intro s
    unfold inferenceModelType modes
    rcases eq_or_ne s "HPUJITModel" with h1 | h1
    · subst h1; simp [List.lookup]
    rcases eq_or_ne s "HPUModel" with h2 | h2
    · subst h2; simp [List.lookup]
    rcases eq_or_ne s "HPUGraphModel" with h3 | h3
    · subst h3; simp [List.lookup]
    · simp [List.lookup, beq_eq_false_iff_ne.mpr h1, beq_eq_false_iff_ne.mpr h2,
        beq_eq_false_iff_ne.mpr h3, h1, h2, h3]
  · intro s t t' h h'
    rw [h] at h'
    exact Option.some.inj h'
  · intro t b r act hact
    cases b <;> cases r <;> simp [inference_main] at hact
    · subst hact; rfl
    · subst hact; rfl
    · rcases hact with h | h <;> subst h <;> rfl

theorem C7_model_type_selection_witness :
    (inferenceModelType "HPUModel").isSome = true :=
  (C7_model_type_selection.1 "HPUModel").mpr (Or.inr (Or.inl rfl))

/- ### C10 -/

/-- C10: in `resnet_accuracy`, a batch whose model output has more rows than
the target has labels is scored on exactly the first `target.size(0)` rows
of the output (the padded tail is dropped before `utils.accuracy`), while a
batch whose sizes match is scored unchanged. -/
theorem C10_output_row_trim {α β : Type} (accFn : List α → List β → Rat × Rat)
    (output : List α) (target : List β) :
    (output.length > target.length →
      resnet_batch_score accFn output target =
        accFn (output.take target.length) target ∧
      (resnet_output_rows output target.length).length = target.length ∧
      (∀ i, i < target.length →
        (resnet_output_rows output target.length)[i]? = output[i]?) ∧
      (∀ i, target.length ≤ i →
        (resnet_output_rows output target.length)[i]? = none)) ∧
    (output.length = target.length →
      resnet_batch_score accFn output target = accFn output target ∧
      resnet_output_rows output target.length = output) := by
  constructor
  · intro h
    have hne : output.length ≠ target.length := by omega
    have hrows : resnet_output_rows output target.length =
        output.take target.length := by
      unfold resnet_output_rows; rw [if_pos hne]
    refine ⟨by unfold resnet_batch_score; rw [hrows], ?_, ?_, ?_⟩
    · rw [hrows, List.length_take]; omega
    · intro i hi
      rw [hrows]
      exact List.getElem?_take_of_lt hi
    · intro i hi
      rw [hrows]
      apply List.getElem?_eq_none
      rw [List.length_take]
      omega
  · intro h
    have hrows : resnet_output_rows output target.length = output := by
      unfold resnet_output_rows; rw [if_neg (not_not_intro h)]
    exact ⟨by unfold resnet_batch_score; rw [hrows], hrows⟩

theorem C10_output_row_trim_witness :
    (resnet_output_rows [(1 : Rat), 2, 3] 1).length = 1 :=
  ((C10_output_row_trim (fun _ => fun _ : List Bool => ((0 : Rat), (0 : Rat)))
    [(1 : Rat), 2, 3] [true]).1 (by decide)).2.1

/- ### C1 -/

/-- C1: resuming from a checkpoint that `main` saved after finishing epoch
`e` loads the model, optimizer, and (when a scheduler is in use) scheduler
states back from the `'model'`, `'optimizer'`, and `'lr_scheduler'` entries,
sets `args.start_epoch` to `e + 1`, and the training loop then runs exactly
the epochs `e + 1, ..., epochs - 1`, starting at `e + 1`. -/
theorem C1_resume_roundtrip {M O S A : Type} (m : M) (o : O) (s : Option S)
    (e : Int) (a : A) (epochs : Int) (st : ResumeState M O S)
    (hcomp : st.lr_scheduler.isSome = s.isSome) :
    mainResume st (checkpointDict m o s e a) = some ⟨m, o, s, e + 1⟩ ∧
    (∀ ep : Int, ep ∈ trainLoopEpochs (e + 1) epochs ↔ e + 1 ≤ ep ∧ ep < epochs) ∧
    (trainLoopEpochs (e + 1) epochs).head? =
      if e + 1 < epochs then some (e + 1) else none := by
  refine ⟨?_, fun ep => trainLoopEpochs_mem _ _ _, trainLoopEpochs_head _ _⟩
  obtain ⟨m0, o0, sch, se⟩ := st
  cases sch <;> cases s <;> first | rfl | simp at hcomp

theorem C1_resume_roundtrip_witness :
    mainResume (⟨0, 0, none, 0⟩ : ResumeState Nat Nat Nat)
        (checkpointDict 5 6 (none : Option Nat) 3 (7 : Nat)) =
      some ⟨5, 6, none, 4⟩ :=
  (C1_resume_roundtrip 5 6 none 3 7 9 ⟨0, 0, none, 0⟩ rfl).1

/- ### C2 -/

/-- C2: for every epoch `e` completed by the training loop, when
`args.output_dir` is truthy and `--save-checkpoint` is set, `main` writes
the same checkpoint dictionary to both `model_{e}.pth` and `checkpoint.pth`;
the dictionary's keys are exactly `model`, `optimizer`, `lr_scheduler`,
`epoch`, `args`, its `'epoch'` entry is `e`, and its `'lr_scheduler'` entry
is `None` exactly when no scheduler object is in use, i.e. for the `sgd`
optimizer with custom LR values. -/
theorem C2_checkpoint_contents {M O S A : Type} (optimizer : String)
    (hasCustom : Bool) (stateOf : SchedKind → S) (m : M) (o : O) (a : A)
    (output_dir device : String) (start_epoch epochs e : Int)
    (hopt : optimizer = "lars" ∨ optimizer = "sgd")
    (hdir : output_dir ≠ "")
    (he : e ∈ trainLoopEpochs start_epoch epochs) :
    ∃ d, mainEpochSave output_dir true device optimizer hasCustom stateOf m o e a =
        some [("model_" ++ toString e ++ ".pth", d), ("checkpoint.pth", d)] ∧
      d.map Prod.fst = ["model", "optimizer", "lr_scheduler", "epoch", "args"] ∧
      d.lookup "epoch" = some (CkptVal.epochNum e) ∧
      (d.lookup "lr_scheduler" = some (CkptVal.schedSt (none : Option S)) ↔
        optimizer = "sgd" ∧ hasCustom = true) := by
  have hsched : ∃ sk : Option SchedKind,
      mainScheduler optimizer hasCustom = some sk ∧
      (sk = none ↔ optimizer = "sgd" ∧ hasCustom = true) := by
    rcases hopt with h | h <;> subst h
    · refine ⟨some SchedKind.polyWarmup, rfl, ?_⟩
      constructor
      · intro hc; exact Option.noConfusion hc
      · rintro ⟨h1, _⟩; exact absurd h1 (by decide)
    · cases hasCustom
      · refine ⟨some SchedKind.stepLR, rfl, ?_⟩
        constructor
        · intro hc; exact Option.noConfusion hc
        · rintro ⟨_, h2⟩; exact Bool.noConfusion h2
      · exact ⟨none, rfl, by simp⟩
  obtain ⟨sk, hsk, hiff⟩ := hsched
  refine ⟨checkpointDict m o (sk.map stateOf) e a, ?_, rfl, rfl, ?_⟩
  · unfold mainEpochSave
    rw [if_pos ⟨hdir, rfl⟩]
    unfold mainCheckpointDict
    rw [hsk]
    simp only [Option.map_some']
    rw [ite_self]
  · have hlk : (checkpointDict m o (sk.map stateOf) e a).lookup "lr_scheduler" =
        some (CkptVal.schedSt (sk.map stateOf)) := rfl
    rw [hlk]
    constructor
    · intro h
      have h2 : sk.map stateOf = (none : Option S) := by
        have h3 := Option.some.inj h
        injection h3
      have h4 : sk = none := by
        cases sk with
        | none => rfl
        | some k => exact Option.noConfusion h2
      exact hiff.mp h4
    · intro h
      rw [hiff.mpr h]
      rfl

theorem C2_checkpoint_contents_witness :
    ∃ d, mainEpochSave "." true "hpu" "sgd" false (fun _ => (0 : Nat)) (1 : Nat)
        (2 : Nat) 0 (3 : Nat) =
        some [("model_" ++ toString (0 : Int) ++ ".pth", d), ("checkpoint.pth", d)] ∧
      d.map Prod.fst = ["model", "optimizer", "lr_scheduler", "epoch", "args"] ∧
      d.lookup "epoch" = some (CkptVal.epochNum 0) ∧
      (d.lookup "lr_scheduler" = some (CkptVal.schedSt (none : Option Nat)) ↔
        "sgd" = "sgd" ∧ false = true) :=
  C2_checkpoint_contents "sgd" false (fun _ => 0) 1 2 3 "." "hpu" 0 1 0
    (Or.inr rfl) (by decide) (by decide)

/- ### lr_vec_fcn machinery (C8, C9) -/

theorem exists_getElem?_some {α : Type} {l : List α} {n : Nat}
    (h : n < l.length) : ∃ x, l[n]? = some x :=
  ⟨l.get ⟨n, h⟩, by rw [List.getElem?_eq_getElem h]; rfl⟩

theorem getD_of_getElem? {l : List Int} {n : Nat} {x : Int}
    (h : l[n]? = some x) : l.getD n 0 = x := by
  have hn : n < l.length := by
    by_contra hc
    rw [List.getElem?_eq_none (by omega)] at h
    exact Option.noConfusion h
  rw [List.getD_eq_getElem l 0 hn]
  rw [List.getElem?_eq_getElem hn] at h
  exact Option.some.inj h

theorem chain'_iff_getD (l : List Int) :
    l.Chain' (· ≤ ·) ↔
      ∀ n, n + 1 < l.length → l.getD n 0 ≤ l.getD (n + 1) 0 := by
  rw [List.chain'_iff_get]
  constructor
  · intro h n hn
    have h1 := h n (by omega)
    rw [List.get_eq_getElem, List.get_eq_getElem] at h1
    rw [List.getD_eq_getElem l 0 (by omega), List.getD_eq_getElem l 0 (by omega)]
    exact h1
  · intro h i hi
    have h1 := h i (by omega)
    rw [List.getD_eq_getElem l 0 (by omega),
      List.getD_eq_getElem l 0 (by omega)] at h1
    rw [List.get_eq_getElem, List.get_eq_getElem]
    exact h1

theorem getD_mono (ms : List Int)
    (hs : ∀ n, n + 1 < ms.length → ms.getD n 0 ≤ ms.getD (n + 1) 0) :
    ∀ a b : Nat, a ≤ b → b < ms.length → ms.getD a 0 ≤ ms.getD b 0 := by
  intro a b
  induction b with
  | zero =>
    intro hab _
    have h0 : a = 0 := by omega
    subst h0
    exact le_refl _
  | succ b ih =>
    intro hab hb
    rcases Nat.eq_or_lt_of_le hab with h | h
    · subst h
      exact le_refl _
    · exact le_trans (ih (by omega) (by omega)) (hs b hb)

theorem lr_vec_loop_sorted {α : Type} (values : List α) (ms : List Int)
    (hs : ∀ n, n + 1 < ms.length → ms.getD n 0 ≤ ms.getD (n + 1) 0) :
    ∀ k, k < ms.length → k ≤ values.length →
      ∃ L, lr_vec_loop values ms k = some L ∧
        (L.length : Int) = ms.getD k 0 - ms.getD 0 0 ∧
        ∀ n (i : Nat), n < k → ms.getD n 0 - ms.getD 0 0 ≤ (i : Int) →
          (i : Int) < ms.getD (n + 1) 0 - ms.getD 0 0 → L[i]? = values[n]? := by
  intro k
  induction k with
  | zero =>
    intro _ _
    refine ⟨[], rfl, by simp, ?_⟩
    intro n i hn
    omega
  | succ k ih =>
    intro hk hkv
    obtain ⟨L, hL, hlen, hwin⟩ := ih (by omega) (by omega)
    obtain ⟨v, hv⟩ : ∃ x, values[k]? = some x :=
      exists_getElem?_some (by omega)
    obtain ⟨mk, hmk⟩ : ∃ x, ms[k]? = some x :=
      exists_getElem?_some (by omega)
    obtain ⟨mk1, hmk1⟩ : ∃ x, ms[k + 1]? = some x :=
      exists_getElem?_some hk
    have hmkD : ms.getD k 0 = mk := getD_of_getElem? hmk
    have hmk1D : ms.getD (k + 1) 0 = mk1 := getD_of_getElem? hmk1
    have hle : mk ≤ mk1 := by
      have := hs k hk
      omega
    refine ⟨L ++ List.replicate (mk1 - mk).toNat v, ?_, ?_, ?_⟩
    · simp only [lr_vec_loop, hL, hv, hmk, hmk1]
    · rw [hmk1D, List.length_append, List.length_replicate]
      push_cast
      omega
    · intro n i hn hlo hhi
      rcases Nat.lt_or_ge n k with hnk | hnk
      · have hmono : ms.getD (n + 1) 0 ≤ ms.getD k 0 :=
          getD_mono ms hs (n + 1) k hnk (by omega)
        have hiL : i < L.length := by omega
        rw [List.getElem?_append_left hiL]
        exact hwin n i hnk hlo hhi
      · have hn' : n = k := by omega
        subst hn'
        have hLi : L.length ≤ i := by omega
        rw [List.getElem?_append_right hLi]
        have hrep : i - L.length < (mk1 - mk).toNat := by omega
        rw [List.getElem?_replicate_of_lt hrep, hv]

theorem lr_vec_loop_any {α : Type} (values : List α) (ms : List Int) :
    ∀ k, k < ms.length → k ≤ values.length →
      ∃ L, lr_vec_loop values ms k = some L ∧
        ms.getD k 0 - ms.getD 0 0 ≤ (L.length : Int) ∧
        ((L.length : Int) = ms.getD k 0 - ms.getD 0 0 ↔
          ∀ n, n < k → ms.getD n 0 ≤ ms.getD (n + 1) 0) := by
  intro k
  induction k with
  | zero =>
    intro _ _
    refine ⟨[], rfl, by simp, ?_⟩
    constructor
    · intro _ n hn
      omega
    · intro _
      simp
  | succ k ih =>
    intro hk hkv
    obtain ⟨L, hL, hge, hiff⟩ := ih (by omega) (by omega)
    obtain ⟨v, hv⟩ : ∃ x, values[k]? = some x :=
      exists_getElem?_some (by omega)
    obtain ⟨mk, hmk⟩ : ∃ x, ms[k]? = some x :=
      exists_getElem?_some (by omega)
    obtain ⟨mk1, hmk1⟩ : ∃ x, ms[k + 1]? = some x :=
      exists_getElem?_some hk
    have hmkD : ms.getD k 0 = mk := getD_of_getElem? hmk
    have hmk1D : ms.getD (k + 1) 0 = mk1 := getD_of_getElem? hmk1
    refine ⟨L ++ List.replicate (mk1 - mk).toNat v, ?_, ?_, ?_⟩
    · simp only [lr_vec_loop, hL, hv, hmk, hmk1]
    · rw [hmk1D, List.length_append, List.length_replicate]
      push_cast
      omega
    · rw [hmk1D, List.length_append, List.length_replicate]
      push_cast
      constructor
      · intro he n hn
        have hLlen : (L.length : Int) = ms.getD k 0 - ms.getD 0 0 := by omega
        rcases Nat.lt_or_ge n k with h | h
        · exact hiff.mp hLlen n h
        · have hn2 : n = k := by omega
          subst hn2
          omega
      · intro hall
        have hLlen : (L.length : Int) = ms.getD k 0 - ms.getD 0 0 :=
          hiff.mpr (fun n hn => hall n (by omega))
        have hk1 : ms.getD k 0 ≤ ms.getD (k + 1) 0 := hall k (by omega)
        omega

theorem lr_vec_loop_of_short {α : Type} (values : List α) (ms : List Int) :
    ∀ k, k ≤ ms.length - 1 → values.length < k → lr_vec_loop values ms k = none := by
  intro k
  induction k with
  | zero =>
    intro _ h
    omega
  | succ k ih =>
    intro hk hv
    rcases Nat.lt_or_ge values.length k with h | h
    · simp only [lr_vec_loop, ih (by omega) h]
    · have hms : k < ms.length := by omega
      obtain ⟨L, hL, _, _⟩ := lr_vec_loop_any values ms k hms (by omega)
      have hvk : values[k]? = none := List.getElem?_eq_none (by omega)
      simp only [lr_vec_loop, hL, hvk]

theorem lr_vec_fcn_none_iff {α : Type} (values : List α) (ms : List Int) :
    lr_vec_fcn values ms = none ↔ values.length < ms.length - 1 := by
  constructor
  · intro h
    by_contra hc
    have hge : ms.length - 1 ≤ values.length := by omega
    rcases Nat.eq_zero_or_pos ms.length with h0 | h0
    · unfold lr_vec_fcn at h
      have h1 : ms.length - 1 = 0 := by omega
      rw [h1] at h
      exact Option.noConfusion h
    · obtain ⟨L, hL, _, _⟩ := lr_vec_loop_any values ms (ms.length - 1) (by omega) hge
      unfold lr_vec_fcn at h
      rw [hL] at h
      exact Option.noConfusion h
  · intro h
    exact lr_vec_loop_of_short values ms (ms.length - 1) (le_refl _) h

theorem lr_vec_window_exists (ms : List Int) :
    ∀ k, ∀ i : Nat, (i : Int) < ms.getD k 0 - ms.getD 0 0 →
      ∃ n, n < k ∧ ms.getD n 0 - ms.getD 0 0 ≤ (i : Int) ∧
        (i : Int) < ms.getD (n + 1) 0 - ms.getD 0 0 := by
  intro k
  induction k with
  | zero =>
    intro i hi
    omega
  | succ k ih =>
    intro i hi
    by_cases h : (i : Int) < ms.getD k 0 - ms.getD 0 0
    · obtain ⟨n, hn, h1, h2⟩ := ih i h
      exact ⟨n, by omega, h1, h2⟩
    · exact ⟨k, by omega, by omega, hi⟩

theorem lr_vec_window_unique (ms : List Int)
    (hs : ∀ n, n + 1 < ms.length → ms.getD n 0 ≤ ms.getD (n + 1) 0)
    {i n n' : Nat} (hn : n + 1 < ms.length) (hn' : n' + 1 < ms.length)
    (h1 : ms.getD n 0 - ms.getD 0 0 ≤ (i : Int))
    (h2 : (i : Int) < ms.getD (n + 1) 0 - ms.getD 0 0)
    (h1' : ms.getD n' 0 - ms.getD 0 0 ≤ (i : Int))
    (h2' : (i : Int) < ms.getD (n' + 1) 0 - ms.getD 0 0) :
    n = n' := by
  rcases Nat.lt_trichotomy n n' with h | h | h
  · have hm : ms.getD (n + 1) 0 ≤ ms.getD n' 0 :=
      getD_mono ms hs (n + 1) n' h (by omega)
    omega
  · exact h
  · have hm : ms.getD (n' + 1) 0 ≤ ms.getD n 0 :=
      getD_mono ms hs (n' + 1) n h (by omega)
    omega

/- ### C8 -/

/-- C8: for values and a non-decreasing milestone list with one more
milestone than values, `lr_vec_fcn` returns a list of length
`milestones[-1] - milestones[0]` whose entry at index `i` is `values[n]` for
the unique `n` whose milestone window contains `i` (each `values[n]`
repeated `milestones[n+1] - milestones[n]` times, in order). -/
theorem C8_lr_vec_fcn_spec {α : Type} (values : List α) (milestones : List Int)
    (hlen : milestones.length = values.length + 1)
    (hmono : milestones.Chain' (· ≤ ·)) :
    ∃ L, lr_vec_fcn values milestones = some L ∧
      ∃ mlast m0, milestones.getLast? = some mlast ∧
        milestones.head? = some m0 ∧
        (L.length : Int) = mlast - m0 ∧
        ∀ i : Nat, i < L.length →
          ∃! n : Nat, msWindow milestones n i ∧ L[i]? = values[n]? := by
  have hs := (chain'_iff_getD milestones).mp hmono
  have hk : values.length < milestones.length := by omega
  obtain ⟨L, hL, hlenL, hwin⟩ :=
    lr_vec_loop_sorted values milestones hs values.length hk (le_refl _)
  have hfcn : lr_vec_fcn values milestones = some L := by
    unfold lr_vec_fcn
    have h1 : milestones.length - 1 = values.length := by omega
    rw [h1]
    exact hL
  refine ⟨L, hfcn, milestones.getD values.length 0, milestones.getD 0 0,
    ?_, ?_, hlenL, ?_⟩
  · rw [List.getLast?_eq_getElem?]
    have h1 : milestones.length - 1 = values.length := by omega
    rw [h1, List.getElem?_eq_getElem (by omega),
      List.getD_eq_getElem _ _ (by omega)]
  · cases milestones with
    | nil =>
      rw [List.length_nil] at hlen
      omega
    | cons x xs => rfl
  · intro i hi
    have hiI : (i : Int) <
        milestones.getD values.length 0 - milestones.getD 0 0 := by
      omega
    obtain ⟨n, hnk, hlo, hhi⟩ :=
      lr_vec_window_exists milestones values.length i hiI
    have hn1 : n + 1 < milestones.length := by omega
    refine ⟨n, ⟨⟨hn1, hlo, hhi⟩, hwin n i hnk hlo hhi⟩, ?_⟩
    rintro n' ⟨⟨hn1', hlo', hhi'⟩, _⟩
    exact lr_vec_window_unique milestones hs hn1' hn1 hlo' hhi' hlo hhi

theorem C8_lr_vec_fcn_spec_witness :
    ∃ L, lr_vec_fcn [(10 : Int), 20] [0, 2, 5] = some L ∧
      ∃ mlast m0, ([0, 2, 5] : List Int).getLast? = some mlast ∧
        ([0, 2, 5] : List Int).head? = some m0 ∧
        (L.length : Int) = mlast - m0 ∧
        ∀ i : Nat, i < L.length →
          ∃! n : Nat, msWindow [0, 2, 5] n i ∧ L[i]? = [(10 : Int), 20][n]? :=
  C8_lr_vec_fcn_spec [(10 : Int), 20] [0, 2, 5] rfl
    (by norm_num [List.chain'_cons, List.chain'_singleton])

/- ### C9 -/

theorem mainMs_getD_last (cms : List Int) (epochs : Int) :
    (0 :: cms ++ [epochs]).getD (cms.length + 1) 0 = epochs := by
  have h : ((0 :: cms) ++ [epochs])[(0 :: cms).length]? = some epochs :=
    List.getElem?_concat_length _ _
  have h2 : (0 :: cms ++ [epochs])[cms.length + 1]? = some epochs := h
  exact getD_of_getElem? h2

/-- C9 counterexample: with `--lr 1 --custom-lr-values 2
--custom-lr-milestones 50 --epochs 30` the milestone list `[0, 50, 30]` is
unsorted and its milestone 50 exceeds `epochs`, yet the built `lr_vec` has
length 50, which is not shorter than `epochs = 30`, and `lr_vec[epoch]`
succeeds for every epoch of `range(0, 30)` — the claimed `IndexError` in the
training loop cannot arise this way (and the CLI checks pass). -/
theorem C9_counterexample :
    mainArgChecks 0 1 = Except.ok () ∧
    ¬ ((0 : Int) :: [50] ++ [30]).Chain' (· ≤ ·) ∧
    ∃ L, mainLrVec 1 [2] [50] 30 = some L ∧
      L.length = 50 ∧
      ¬ (L.length : Int) < 30 ∧
      ∀ epoch : Nat, epoch < 30 →
        (adjust_learning_rate [1] epoch L).isSome = true := by
  refine ⟨rfl, by norm_num [List.chain'_cons, List.chain'_singleton],
    List.replicate 50 1, by decide, by decide, by decide, by decide⟩

/-- C9 (amended): `adjust_learning_rate` indeed reads `lr_vec[epoch]` with
no bounds check (it fails exactly when `epoch` is out of range), and the
list built by `lr_vec_fcn([lr] + custom_lr_values,
[0] + custom_lr_milestones + [epochs])` has length `args.epochs` exactly
when the milestone list is non-decreasing; but whenever the list is built at
all its length is at least `epochs`, so the access is in range for every
epoch in `range(start_epoch, epochs)` even for unsorted milestones or
milestones exceeding `args.epochs`; the `IndexError` that unvalidated CLI
milestones can actually cause is inside `lr_vec_fcn` itself, exactly when
more custom milestones than custom values are given. -/
theorem C9_lr_vec_indexing (lr : Rat) (cv : List Rat) (cms : List Int)
    (epochs : Int) (groups : List Rat) :
    (mainLrVec lr cv cms epochs = none ↔ cv.length < cms.length) ∧
    ∀ L, mainLrVec lr cv cms epochs = some L →
      epochs ≤ (L.length : Int) ∧
      ((L.length : Int) = epochs ↔
        ((0 : Int) :: cms ++ [epochs]).Chain' (· ≤ ·)) ∧
      (∀ epoch : Nat, (epoch : Int) < epochs →
        (adjust_learning_rate groups epoch L).isSome = true) ∧
      (∀ epoch : Nat, (adjust_learning_rate groups epoch L).isSome = true ↔
        epoch < L.length) ∧
      (∀ epoch : Nat, ∀ lrv, L[epoch]? = some lrv →
        adjust_learning_rate groups epoch L =
          some (groups.map (fun _ => lrv))) := by
  have hms_len : ((0 : Int) :: cms ++ [epochs]).length = cms.length + 2 := by
    simp
  constructor
  · rw [mainLrVec, lr_vec_fcn_none_iff, hms_len]
    simp only [List.length_cons]
    constructor <;> intro h <;> omega
  · intro L hL
    have hk : cms.length + 1 < ((0 : Int) :: cms ++ [epochs]).length := by
      omega
    have hkv : cms.length + 1 ≤ (lr :: cv).length := by
      by_contra hc
      have hnone : mainLrVec lr cv cms epochs = none := by
        rw [mainLrVec, lr_vec_fcn_none_iff, hms_len]
        simp only [List.length_cons] at hc ⊢
        omega
      rw [hnone] at hL
      exact Option.noConfusion hL
    obtain ⟨L', hL', hge, hiff⟩ :=
      lr_vec_loop_any (lr :: cv) ((0 : Int) :: cms ++ [epochs])
        (cms.length + 1) hk hkv
    have hLL : L = L' := by
      have h2 : lr_vec_fcn (lr :: cv) ((0 : Int) :: cms ++ [epochs]) =
          some L' := by
        unfold lr_vec_fcn
        have h3 : ((0 : Int) :: cms ++ [epochs]).length - 1 = cms.length + 1 := by
          omega
        rw [h3]
        exact hL'
      rw [mainLrVec, h2] at hL
      exact (Option.some.inj hL).symm
    subst hLL
    have hlast := mainMs_getD_last cms epochs
    have hzero : ((0 : Int) :: cms ++ [epochs]).getD 0 0 = (0 : Int) := rfl
    refine ⟨by omega, ?_, ?_, ?_, ?_⟩
    · rw [chain'_iff_getD]
      constructor
      · intro he n hn
        have hn2 : n < cms.length + 1 := by
          rw [hms_len] at hn
          omega
        have hLlen : (L.length : Int) =
            ((0 : Int) :: cms ++ [epochs]).getD (cms.length + 1) 0 -
              ((0 : Int) :: cms ++ [epochs]).getD 0 0 := by
          omega
        exact hiff.mp hLlen n hn2
      · intro hall
        have h4 : (L.length : Int) =
            ((0 : Int) :: cms ++ [epochs]).getD (cms.length + 1) 0 -
              ((0 : Int) :: cms ++ [epochs]).getD 0 0 := by
          apply hiff.mpr
          intro n hn
          apply hall
          rw [hms_len]
          omega
        omega
    · intro epoch hep
      have h5 : epoch < L.length := by omega
      unfold adjust_learning_rate
      rw [List.getElem?_eq_getElem h5]
      rfl
    · intro epoch
      constructor
      · intro h
        by_contra hc
        unfold adjust_learning_rate at h
        rw [List.getElem?_eq_none (by omega)] at h
        exact Bool.noConfusion h
      · intro h
        unfold adjust_learning_rate
        rw [List.getElem?_eq_getElem h]
        rfl
    · intro epoch lrv h
      unfold adjust_learning_rate
      rw [h]
      rfl

theorem C9_lr_vec_indexing_witness :
    (20 : Int) ≤ ((List.replicate 10 (1 : Rat) ++ List.replicate 10 2).length : Int) :=
  ((C9_lr_vec_indexing 1 [2] [10] 20 [3]).2
    (List.replicate 10 (1 : Rat) ++ List.replicate 10 2) (by decide)).1
